import Mathlib

/-!
Verification of the survey-data API gateway (src/app/main.py).

The file shallowly embeds the request-handling core of main.py:
the metadata store (metadata.json, an association from variable key to
id/label/categories), the table-key resolver (get_metadata_keys), the
query construction of get_table_data (lines 103-109), a semantics of the
SQLite engine executing that query on a stored table (an external
collaborator, modelled for well-formed column names), and the per-row
decoding loop of get_table_data (lines 116-123).
-/

namespace SurveyGateway

/-- A stored SQLite value as the Python layer sees it: INTEGER, TEXT or
NULL. REAL and BLOB columns are omitted; no claim under verification
depends on them. -/
inductive Value where
  | int : Int → Value
  | str : String → Value
  | null : Value
deriving DecidableEq

/-- Python of str(val) for the values above: str of an int prints the
decimal form with a leading minus for negatives, str of a string is the
string itself, and str of None is the text None. -/
def valueStr : Value → String
  | .int n => toString n
  | .str s => s
  | .null => "None"

/-- One entry of metadata.json: a numeric id carried as a string of the
form letter+digits, a display label, and an optional code-to-label
category mapping (the empty list models an absent or empty dict, which
Python treats as falsy in the decoder). -/
structure MetaEntry where
  id : String
  label : String
  categories : List (String × String)
deriving DecidableEq

/-- metadata.json as an association list from variable key to its entry,
in file order; main.py loads it once at startup into the global called
metadata. -/
abbrev Metadata := List (String × MetaEntry)

/-- Python dict access metadata.get(k) on the loaded metadata. -/
def mdFind (md : Metadata) (k : String) : Option MetaEntry :=
  (md.find? (fun p => p.1 == k)).map (fun p => p.2)

/-- Python of metadata.keys() in insertion order. -/
def mdKeys (md : Metadata) : List String := md.map (fun p => p.1)

/-- Python str.endswith, computed on the underlying character lists. -/
def strEndsWith (s suffix : String) : Bool := suffix.data.isSuffixOf s.data

/-- Python str.upper for the ASCII table names handled here, computed
per character on the underlying character list. -/
def strUpper (s : String) : String := String.mk (s.data.map Char.toUpper)

/-- Python int(cs) for a plain non-empty digit string, as produced by
the well-formed letter+digits ids the spec describes; anything else is
the ValueError case, modelled as none. -/
def digitsToNat? (cs : List Char) : Option Nat :=
  if cs ≠ [] ∧ cs.all Char.isDigit
  then some (cs.foldl (fun n c => n * 10 + (c.toNat - 48)) 0)
  else none

/-- Python int(entry_id[1:]): strip the leading letter and parse the
rest as a number (the sort key of get_metadata_keys, line 76). -/
def numericId (s : String) : Option Nat := digitsToNat? (s.data.drop 1)

/-- The numeric sort key of a metadata key, defaulting to 0 where the
id is missing or malformed (get_metadata_keys errors before the default
matters). -/
def keyNum (md : Metadata) (k : String) : Nat :=
  (((mdFind md k).map MetaEntry.id).bind numericId).getD 0

/-- The suffix_map dict of get_metadata_keys (lines 66-71). -/
def suffix_map : List (String × String) :=
  [("HHFV_2019-20", "_hh_fv"),
   ("HHRV_2019-20", "_hh_rv"),
   ("PERFV_2019-20", "_per_fv"),
   ("PERRV_2019-20", "_per_rv")]

/-- Lookup of a table identifier in suffix_map. -/
def tableSuffix (table : String) : Option String :=
  (suffix_map.find? (fun p => p.1 == table)).map (fun p => p.2)

/-- The allowed_tables set of main.py line 55, as a list. -/
def allowed_tables : List String :=
  ["HHFV_2019-20", "HHRV_2019-20", "PERFV_2019-20", "PERRV_2019-20"]

/-- get_metadata_keys of main.py (lines 65-77): look the table up in
suffix_map (the ValueError branch is the error case), keep the metadata
keys that end with the suffix, and sort them ascending by the numeric
part of each entry's id. Python raises ValueError from int() inside the
sort key on a malformed id; that is the second error case, guarded here
before sorting. Python list.sort is a stable sort; insertionSort is
stable as well, and the verified properties concern sortedness, not the
order of equal keys. -/
def get_metadata_keys (md : Metadata) (table : String) :
    Except String (List String) :=
  match tableSuffix table with
  | none => .error ("Unknown table")
  | some suffix =>
      let keys := (mdKeys md).filter (fun k => strEndsWith k suffix)
      if keys.all (fun k => (((mdFind md k).map MetaEntry.id).bind numericId).isSome)
      then .ok (keys.insertionSort (fun a b => keyNum md a ≤ keyNum md b))
      else .error ("invalid id")

/-- Python of metadata[k]["label"] (line 100); the default is never
reached for keys produced by get_metadata_keys. -/
def labelOf (md : Metadata) (k : String) : String :=
  ((mdFind md k).map MetaEntry.label).getD ""

/-- Python of metadata[k].get("categories", ...) (line 101). -/
def catsOf (md : Metadata) (k : String) : List (String × String) :=
  ((mdFind md k).map MetaEntry.categories).getD []

/-- The labels list of get_table_data line 100. -/
def labelsOf (md : Metadata) (meta_keys : List String) : List String :=
  meta_keys.map (labelOf md)

/-- The categories_list of get_table_data line 101. -/
def categoriesOf (md : Metadata) (meta_keys : List String) :
    List (List (String × String)) :=
  meta_keys.map (catsOf md)

/-- Line 121 of main.py for one cell:
display_val is categories.get(str(val), val) when categories is
non-empty (truthy), and val itself when the dict is empty; an unmapped
code falls back to the raw value via the dict.get default. -/
def applyCategories (cats : List (String × String)) (val : Value) : Value :=
  if cats.isEmpty then val
  else
    match cats.find? (fun p => p.1 == valueStr val) with
    | some p => Value.str p.2
    | none => val

/-- The per-row loop of get_table_data (lines 116-123): iterate over the
row with its index, read labels[idx] and categories_list[idx] (reading
past the end of either list raises IndexError, the none case), and bind
the label to the decoded value. The loop stops when the row is
exhausted, so a row shorter than the lists terminates normally. The
Python dict item is modelled as the association list of its insertions
in order. -/
def decodeRow : List Value → List String → List (List (String × String)) →
    Option (List (String × Value))
  | [], _, _ => some []
  | v :: vs, label :: ls, cats :: cs =>
      (decodeRow vs ls cs).map (fun rest => (label, applyCategories cats v) :: rest)
  | _ :: _, _, _ => none

theorem decodeRow_zip :
    ∀ (row : List Value) (labels : List String)
      (cl : List (List (String × String))),
      row.length ≤ labels.length → row.length ≤ cl.length →
      decodeRow row labels cl =
        some (List.zipWith (fun v lc => (lc.1, applyCategories lc.2 v))
          row (labels.zip cl))
  | [], _, _, _, _ => rfl
  | _ :: _, [], _, h1, _ => absurd h1 (by simp)
  | _ :: _, _ :: _, [], _, h2 => absurd h2 (by simp)
  | v :: vs, label :: ls, cats :: cs, h1, h2 => by
      have ih := decodeRow_zip vs ls cs
        (Nat.le_of_succ_le_succ h1) (Nat.le_of_succ_le_succ h2)
      simp [decodeRow, ih, List.zip_cons_cons]

/-- C1: for a row matching the resolved metadata key list in width, the
per-row loop of get_table_data succeeds (no error) and outputs, for each
positional pair of stored value and metadata key, the key's label as the
field name; the value is the mapped display string when the key has a
non-empty category mapping containing the string form of the value, and
the raw stored value unchanged otherwise (no mapping, or mapping without
that code). -/
theorem c1_row_decoder (md : Metadata) (meta_keys : List String)
    (row : List Value) (h : row.length = meta_keys.length) :
    decodeRow row (labelsOf md meta_keys) (categoriesOf md meta_keys) =
      some (List.zipWith
        (fun v k => (labelOf md k, applyCategories (catsOf md k) v))
        row meta_keys) := by
  have h1 : row.length ≤ (labelsOf md meta_keys).length := by
    simp [labelsOf, h]
  have h2 : row.length ≤ (categoriesOf md meta_keys).length := by
    simp [categoriesOf, h]
  rw [decodeRow_zip row _ _ h1 h2]
  congr 1
  clear h h1 h2
  induction meta_keys generalizing row with
  | nil => cases row <;> simp [labelsOf, categoriesOf]
  | cons k ks ih =>
      cases row with
      | nil => simp
      | cons v vs =>
          simp only [labelsOf, categoriesOf, List.map_cons, List.zip_cons_cons,
            List.zipWith_cons_cons]
          exact congrArg _ (ih vs)

/-- Witness for C1 at the spec's concrete example: metadata entry
v33_hh_fv with label Region and categories mapping 1 to North and 2 to
South; the stored row (1,) decodes to the single binding Region/North. -/
theorem c1_witness :
    decodeRow [Value.int 1] ["Region"] [[("1", "North"), ("2", "South")]] =
      some [("Region", Value.str ("North"))] := by
  have h := c1_row_decoder
    [("v33_hh_fv", ⟨"V33", "Region", [("1", "North"), ("2", "South")]⟩)]
    ["v33_hh_fv"] [Value.int 1] (by decide)
  exact (by decide : decodeRow [Value.int 1] ["Region"]
      [[("1", "North"), ("2", "South")]] =
    decodeRow [Value.int 1]
      (labelsOf [("v33_hh_fv", ⟨"V33", "Region", [("1", "North"), ("2", "South")]⟩)] ["v33_hh_fv"])
      (categoriesOf [("v33_hh_fv", ⟨"V33", "Region", [("1", "North"), ("2", "South")]⟩)] ["v33_hh_fv"])).trans
    (h.trans (by decide))

/-- C6 counterexample: a row of width 0 against a metadata list of width
1 decodes successfully to the empty partial row, with no error, although
the widths differ; the loop of lines 116-123 iterates over the row, so a
row narrower than the metadata list silently truncates the decoding. -/
theorem c6_counterexample :
    decodeRow [] ["Region"] [[("1", "North")]] = some [] ∧
      ([] : List Value).length ≠ ["Region"].length := by
  exact ⟨rfl, by decide⟩

/-- C6 amended: a row wider than the resolved metadata list raises an
IndexError (no partial result is produced); but a row narrower than the
metadata list is not treated as an integrity fault: it is silently
decoded into a successful partial result covering only its own columns,
one output binding per row cell. -/
theorem c6_width_mismatch (row : List Value) (labels : List String)
    (cl : List (List (String × String))) (hwidth : cl.length = labels.length) :
    (labels.length < row.length → decodeRow row labels cl = none) ∧
      (row.length ≤ labels.length →
        ∃ out, decodeRow row labels cl = some out ∧ out.length = row.length) := by
  constructor
  · intro hlt
    induction row generalizing labels cl with
    | nil => simp at hlt
    | cons v vs ih =>
        cases labels with
        | nil => cases cl with
          | nil => rfl
          | cons c cs => rfl
        | cons label ls =>
            cases cl with
            | nil => simp at hwidth
            | cons c cs =>
                have := ih ls cs (by simpa using hwidth)
                  (Nat.lt_of_succ_lt_succ hlt)
                simp [decodeRow, this]
  · intro hle
    have h2 : row.length ≤ cl.length := hwidth ▸ hle
    refine ⟨_, decodeRow_zip row labels cl hle h2, ?_⟩
    simp only [List.length_zipWith, List.length_zip]
    omega

/-- Witness for the C6 amendment: a two-cell row against one metadata
column raises IndexError, and a one-cell row against two metadata
columns silently decodes to a one-binding partial result. -/
theorem c6_width_mismatch_witness :
    decodeRow [Value.int 1, Value.int 2] ["A"] [[]] = none ∧
      ∃ out, decodeRow [Value.int 1] ["A", "B"] [[], []] = some out ∧
        out.length = 1 :=
  ⟨(c6_width_mismatch [Value.int 1, Value.int 2] ["A"] [[]] rfl).1 (by decide),
   (c6_width_mismatch [Value.int 1] ["A", "B"] [[], []] rfl).2 (by decide)⟩

/-! Query construction and engine semantics. -/

/-- Python truthiness of the optional string request parameters
filter_col and filter_val (default None; the empty string is falsy). -/
def truthy : Option String → Bool
  | none => false
  | some s => !(s == "")

/-- Lines 103-109 of get_table_data: the SQL text and the bound
parameter list. The table name, the filter column and the limit are
interpolated into the text (the table name inside double quotes, the
filter column inside double quotes after WHERE, the limit verbatim);
only the filter value is bound, as the single question-mark parameter,
and only when both filter_col and filter_val are truthy. -/
def buildQuery (table_name : String) (limit : Option Int)
    (filter_col filter_val : Option String) : String × List String :=
  let query := "SELECT * FROM \"" ++ table_name ++ "\""
  let qp : String × List String :=
    if truthy filter_col && truthy filter_val then
      (query ++ " WHERE \"" ++ filter_col.getD "" ++ "\" = ?",
       [filter_val.getD ""])
    else (query, [])
  match limit with
  | some n => (qp.1 ++ " LIMIT " ++ toString n, qp.2)
  | none => qp

/-- The stored database: per table, its physical column names and its
rows in storage order. The engine itself is an external collaborator;
this is its read-only view. -/
structure DB where
  columns : String → List String
  rows : String → List (List Value)

/-- SQLite evaluating the clause WHERE col = ? on one row, for a benign
column name: find the column's position and compare the stored value
with the bound text parameter. The engine's affinity conversions are
modelled as comparison on the textual form. -/
def rowMatch (cols : List String) (col : String) (v : String)
    (row : List Value) : Bool :=
  match cols.findIdx? (fun c => c == col) with
  | none => false
  | some i =>
      match row.get? i with
      | some x => valueStr x == v
      | none => false

/-- SQLite's LIMIT clause: a negative limit means no upper bound on the
number of returned rows; a non-negative limit keeps at most that many
rows from the front. Absent limit returns everything. -/
def applyLimit : Option Int → List (List Value) → List (List Value)
  | none, rows => rows
  | some n, rows => if n < 0 then rows else rows.take n.toNat

/-- The engine executing the query built by lines 103-109 on the stored
table, for a benign filter column: all rows of the table, filtered by
equality on the filter column exactly when both filter parameters are
truthy (line 105), then limited (line 108). -/
def execQuery (db : DB) (table : String) (limit : Option Int)
    (filter_col filter_val : Option String) : List (List Value) :=
  let rows := db.rows table
  let rows :=
    if truthy filter_col && truthy filter_val then
      rows.filter (rowMatch (db.columns table) (filter_col.getD "")
        (filter_val.getD ""))
    else rows
  applyLimit limit rows

/-- An HTTP error response: status code and detail body. -/
structure HTTPError where
  status : Nat
  detail : String
deriving DecidableEq

/-- get_table_data of main.py (lines 86-125): uppercase the table name,
reject it with 404 when it is outside allowed_tables (before any
storage access — the result is a constant independent of db on that
path), resolve the metadata keys (a ValueError there surfaces as a 500),
build and execute the query, and decode every returned row; an
IndexError in the decoding loop also surfaces as a 500. -/
def get_table_data (md : Metadata) (db : DB) (table_name : String)
    (limit : Option Int) (filter_col filter_val : Option String) :
    Except HTTPError (List (List (String × Value))) :=
  let table_name := strUpper table_name
  if table_name ∈ allowed_tables then
    match get_metadata_keys md table_name with
    | .error e => .error ⟨500, e⟩
    | .ok meta_keys =>
        let labels := labelsOf md meta_keys
        let categories_list := categoriesOf md meta_keys
        let rows := execQuery db table_name limit filter_col filter_val
        match rows.mapM (fun row => decodeRow row labels categories_list) with
        | some result => .ok result
        | none => .error ⟨500, "IndexError"⟩
  else .error ⟨404, "Table not found"⟩

/-- A small concrete metadata store used to instantiate the universally
quantified theorems: two household-fv variables, and one variable for
each of the other three tables. -/
def sampleMd : Metadata :=
  [("v1_hh_fv", ⟨"V1", "A", []⟩),
   ("v2_hh_fv", ⟨"V2", "B", [("1", "Yes")]⟩),
   ("v1_hh_rv", ⟨"V1", "C", []⟩),
   ("v1_per_fv", ⟨"V1", "D", []⟩),
   ("v1_per_rv", ⟨"V1", "E", []⟩)]

/-- A small concrete database: one single-column row in the household-fv
table, nothing elsewhere. -/
def sampleDb : DB :=
  ⟨fun _ => ["V1C"], fun t => if t == "HHFV_2019-20" then [[Value.int 1]] else []⟩

/-- C3: lines 103-109 interpolate the caller-supplied filter_col into
the query text with no validation against the physical column set and no
escaping of the double quote; a filter_col containing a closing quote
followed by a UNION clause produces a syntactically valid query whose
text selects from another allow-listed table with a single bound
parameter, so the request neither fails with a client error nor keeps
the original query semantics. -/
theorem c3_filter_col_interpolated :
    buildQuery ("HHFV_2019-20") none
      (some ("a\" = \"a\" UNION SELECT * FROM \"HHRV_2019-20\" WHERE \"b"))
      (some ("1")) =
    ("SELECT * FROM \"HHFV_2019-20\" WHERE \"a\" = \"a\" UNION SELECT * FROM \"HHRV_2019-20\" WHERE \"b\" = ?",
     ["1"]) := by
  decide

/-- C4: when both filter parameters are provided (truthy), the query
text built by lines 103-109 is independent of the filter value — two
runs differing only in filter_val build identical text — and the filter
value travels exclusively as the single bound parameter. -/
theorem c4_filter_val_bound (table : String) (lim : Option Int)
    (fc fv1 fv2 : String) (hc : fc ≠ "") (h1 : fv1 ≠ "") (h2 : fv2 ≠ "") :
    (buildQuery table lim (some fc) (some fv1)).1 =
        (buildQuery table lim (some fc) (some fv2)).1 ∧
      (buildQuery table lim (some fc) (some fv1)).2 = [fv1] := by
  cases lim <;> simp [buildQuery, truthy, hc, h1, h2]

/-- Witness for C4 at concrete inputs: filter values 1 and 2 on the same
column build the same text, and 1 is the bound parameter. -/
theorem c4_witness :
    (buildQuery ("HHFV_2019-20") none (some ("Region")) (some ("1"))).1 =
        (buildQuery ("HHFV_2019-20") none (some ("Region")) (some ("2"))).1 ∧
      (buildQuery ("HHFV_2019-20") none (some ("Region")) (some ("1"))).2 = ["1"] :=
  c4_filter_val_bound ("HHFV_2019-20") none ("Region") ("1") ("2")
    (by decide) (by decide) (by decide)

/-- C5: a request whose uppercased table name is outside allowed_tables
is rejected with a 404 whose detail identifies the missing table, before
any storage access: the response is the same constant for every database
value, since lines 95-97 raise before a connection is opened. -/
theorem c5_unknown_table (md : Metadata) (db : DB) (tn : String)
    (lim : Option Int) (fc fv : Option String)
    (h : strUpper tn ∉ allowed_tables) :
    get_table_data md db tn lim fc fv = .error ⟨404, "Table not found"⟩ := by
  simp only [get_table_data]
  rw [if_neg h]

/-- Witness for C5: the table name nope is rejected with the 404 body,
on a database that does hold rows. -/
theorem c5_witness :
    get_table_data sampleMd sampleDb ("nope") none none none =
      .error ⟨404, "Table not found"⟩ :=
  c5_unknown_table sampleMd sampleDb ("nope") none none none (by decide)

/-- C7: a valid request with limit 0 appends LIMIT 0 to the query, the
engine returns zero rows, and the endpoint answers success with an empty
data list — neither an error nor all rows. -/
theorem c7_limit_zero (md : Metadata) (db : DB) (tn : String)
    (fc fv : Option String) (ht : strUpper tn ∈ allowed_tables)
    (hm : ∃ ks, get_metadata_keys md (strUpper tn) = .ok ks) :
    get_table_data md db tn (some 0) fc fv = .ok [] := by
  obtain ⟨ks, hks⟩ := hm
  simp [get_table_data, ht, hks, execQuery, applyLimit, List.mapM.loop]

/-- Witness for C7: limit 0 on the household-fv table of the sample
store, whose table is non-empty, returns the empty list. -/
theorem c7_witness :
    get_table_data sampleMd sampleDb ("HHFV_2019-20") (some 0) none none =
      .ok [] :=
  c7_limit_zero sampleMd sampleDb ("HHFV_2019-20") none none (by decide)
    ⟨["v1_hh_fv", "v2_hh_fv"], by rfl⟩

/-- C8: line 108 splices the request's limit into the query text with no
non-negativity validation; at limit -1 the text ends in LIMIT -1, which
SQLite reads as no bound at all, so a two-row table yields two rows —
more than the claimed at-most-limit bound allows. -/
theorem c8_limit_spliced :
    buildQuery ("HHFV_2019-20") (some (-1)) none none =
        ("SELECT * FROM \"HHFV_2019-20\" LIMIT -1", []) ∧
      applyLimit (some (-1)) [[Value.int 1], [Value.int 2]] =
        [[Value.int 1], [Value.int 2]] := by
  decide

/-- C9: the filter is applied only when both filter_col and filter_val
are truthy (line 105), so a request supplying one of them without the
other (absent or empty) returns exactly what the request with neither
returns. -/
theorem c9_lone_filter_param (md : Metadata) (db : DB) (tn : String)
    (lim : Option Int) (fc fv : Option String)
    (h : truthy fc = false ∨ truthy fv = false) :
    get_table_data md db tn lim fc fv = get_table_data md db tn lim none none := by
  have hcond : (truthy fc && truthy fv) = false := by
    rcases h with h | h <;> simp [h]
  have hexec : ∀ t l, execQuery db t l fc fv = execQuery db t l none none := by
    intro t l
    unfold execQuery
    rw [hcond]
    rfl
  simp only [get_table_data, hexec]

/-- Witness for C9: filter_col alone on the sample store equals the
unfiltered request. -/
theorem c9_witness :
    get_table_data sampleMd sampleDb ("HHFV_2019-20") none (some ("Region")) none =
      get_table_data sampleMd sampleDb ("HHFV_2019-20") none none none :=
  c9_lone_filter_param sampleMd sampleDb ("HHFV_2019-20") none
    (some ("Region")) none (Or.inr rfl)

/-- C10: allowed_tables is exactly the key set of suffix_map, so a table
name that passed the allow-list check of line 96 always resolves to a
suffix, and the Unknown-table ValueError branch of get_metadata_keys is
unreachable from the endpoint, whatever the metadata contains. -/
theorem c10_unknown_branch_unreachable (tn : String) (md : Metadata)
    (htn : tn ∈ allowed_tables) :
    (tableSuffix tn).isSome = true ∧
      get_metadata_keys md tn ≠ .error ("Unknown table") ∧
      suffix_map.map (fun p => p.1) = allowed_tables := by
  have hsome : (tableSuffix tn).isSome = true := by
    fin_cases htn <;> decide
  refine ⟨hsome, ?_, by decide⟩
  unfold get_metadata_keys
  cases hts : tableSuffix tn with
  | none => rw [hts] at hsome; simp at hsome
  | some s =>
      dsimp only
      split <;> simp

/-- Witness for C10 at the last allow-listed table and the empty
metadata store. -/
theorem c10_witness :
    (tableSuffix ("PERRV_2019-20")).isSome = true ∧
      get_metadata_keys [] ("PERRV_2019-20") ≠ .error ("Unknown table") ∧
      suffix_map.map (fun p => p.1) = allowed_tables :=
  c10_unknown_branch_unreachable ("PERRV_2019-20") [] (by decide)

theorem mdFind_mem_keys {md : Metadata} {k : String} (hk : k ∈ mdKeys md) :
    ∃ e, mdFind md k = some e ∧ (k, e) ∈ md := by
  obtain ⟨p, hp, hpk⟩ := List.mem_map.mp hk
  have hfind : (md.find? (fun q => q.1 == k)).isSome := by
    rw [List.find?_isSome]
    exact ⟨p, hp, by simp [hpk]⟩
  obtain ⟨q, hq⟩ := Option.isSome_iff_exists.mp hfind
  have hqmem := List.mem_of_find?_eq_some hq
  have hqk : q.1 = k := by simpa using List.find?_some hq
  refine ⟨q.2, by simp [mdFind, hq], ?_⟩
  rw [← hqk]
  exact hqmem

/-- Modelled from the spec: metadata.json (the contents of the Metadata
Store) is not under src/, only the code reading it is, so its
well-formedness is taken from the spec. Keys are unique (spec section 3:
key is a unique string); every id is letter+digits, so the numeric part
parses (section 4.1 makes a malformed id a fatal startup-data error);
every table suffix has at least one entry and entries sharing a suffix
have distinct numeric ids (section 8: resolve returns a non-empty,
strictly ascending sequence, with the digits as the sort order). -/
def MetadataWF (md : Metadata) : Prop :=
  (mdKeys md).Nodup ∧
    (∀ p ∈ md, (numericId p.2.id).isSome = true) ∧
    (∀ s ∈ suffix_map.map (fun p => p.2),
      ∃ k ∈ mdKeys md, strEndsWith k s = true) ∧
    (∀ s ∈ suffix_map.map (fun p => p.2), ∀ k1 ∈ mdKeys md, ∀ k2 ∈ mdKeys md,
      strEndsWith k1 s = true → strEndsWith k2 s = true → k1 ≠ k2 →
      keyNum md k1 ≠ keyNum md k2)

/-- C2: on a well-formed metadata store, every allow-listed table
identifier resolves: get_metadata_keys succeeds with a non-empty key
sequence, every returned key ends with the table's suffix, and the
sequence is strictly ascending by the numeric portion of each entry's
id. -/
theorem c2_resolver (md : Metadata) (table : String)
    (hwf : MetadataWF md) (ht : table ∈ allowed_tables) :
    ∃ s keys, tableSuffix table = some s ∧
      get_metadata_keys md table = .ok keys ∧
      keys ≠ [] ∧ (∀ k ∈ keys, strEndsWith k s = true) ∧
      keys.Pairwise (fun a b => keyNum md a < keyNum md b) := by
  obtain ⟨hnodup, hids, hinhab, hinj⟩ := hwf
  obtain ⟨s, hs, hsmem⟩ :
      ∃ s, tableSuffix table = some s ∧ s ∈ suffix_map.map (fun p => p.2) := by
    fin_cases ht
    · exact ⟨"_hh_fv", by decide, by decide⟩
    · exact ⟨"_hh_rv", by decide, by decide⟩
    · exact ⟨"_per_fv", by decide, by decide⟩
    · exact ⟨"_per_rv", by decide, by decide⟩
  have hall : ((mdKeys md).filter (fun k => strEndsWith k s)).all
      (fun k => (((mdFind md k).map MetaEntry.id).bind numericId).isSome) = true := by
    rw [List.all_eq_true]
    intro k hk
    obtain ⟨e, he, hmem⟩ := mdFind_mem_keys (List.mem_of_mem_filter hk)
    simpa [he] using hids (k, e) hmem
  have hgmk : get_metadata_keys md table =
      .ok (((mdKeys md).filter (fun k => strEndsWith k s)).insertionSort
        (fun a b => keyNum md a ≤ keyNum md b)) := by
    unfold get_metadata_keys
    rw [hs]
    dsimp only
    rw [if_pos hall]
  refine ⟨s, _, hs, hgmk, ?_, ?_, ?_⟩
  · obtain ⟨k0, hk0mem, hk0end⟩ := hinhab s hsmem
    have hk0 : k0 ∈ ((mdKeys md).filter (fun k => strEndsWith k s)).insertionSort
        (fun a b => keyNum md a ≤ keyNum md b) :=
      (List.mem_insertionSort _).mpr (List.mem_filter.mpr ⟨hk0mem, hk0end⟩)
    exact List.ne_nil_of_mem hk0
  · intro k hk
    exact (List.mem_filter.mp ((List.mem_insertionSort _).mp hk)).2
  · haveI : IsTotal String (fun a b => keyNum md a ≤ keyNum md b) :=
      ⟨fun a b => Nat.le_total _ _⟩
    haveI : IsTrans String (fun a b => keyNum md a ≤ keyNum md b) :=
      ⟨fun _ _ _ h1 h2 => Nat.le_trans h1 h2⟩
    have hsorted : List.Sorted (fun a b => keyNum md a ≤ keyNum md b)
        (((mdKeys md).filter (fun k => strEndsWith k s)).insertionSort
          (fun a b => keyNum md a ≤ keyNum md b)) :=
      List.sorted_insertionSort _ _
    have hnodup2 : (((mdKeys md).filter (fun k => strEndsWith k s)).insertionSort
        (fun a b => keyNum md a ≤ keyNum md b)).Nodup :=
      (List.perm_insertionSort _ _).nodup_iff.mpr (hnodup.filter _)
    refine List.Pairwise.imp_of_mem ?_ (List.Pairwise.and hsorted hnodup2)
    intro a b ha hb hab
    have ha' := List.mem_filter.mp ((List.mem_insertionSort _).mp ha)
    have hb' := List.mem_filter.mp ((List.mem_insertionSort _).mp hb)
    exact Nat.lt_of_le_of_ne hab.1
      (hinj s hsmem a ha'.1 b hb'.1 ha'.2 hb'.2 hab.2)

/-- Witness for C2: the sample store is well-formed and the household-fv
table resolves to a non-empty, suffix-matching, strictly ascending key
sequence. -/
theorem c2_witness :
    ∃ s keys, tableSuffix ("HHFV_2019-20") = some s ∧
      get_metadata_keys sampleMd ("HHFV_2019-20") = .ok keys ∧
      keys ≠ [] ∧ (∀ k ∈ keys, strEndsWith k s = true) ∧
      keys.Pairwise (fun a b => keyNum sampleMd a < keyNum sampleMd b) :=
  c2_resolver sampleMd ("HHFV_2019-20") (by unfold MetadataWF; decide) (by decide)

end SurveyGateway
